import Mathlib

/-!
Verification of the reactive-state runtime and template-cloning renderer
implemented in src/main.js of the js-framework-demo repository.

The two subsystems are embedded shallowly:

Reactive system (function reactiveSystem, src/main.js lines 78-171).
JavaScript closures registered through useEffect are modelled as programs
of a small command language (a list of writes, each evaluating an
expression whose reads go through the proxy get trap); the function
identity of an effect is its index into a fixed environment.  The mutable
closure state of the system (propertyKeyToEffectsMap, currentEffect,
effectsForFlush, queued), the proxied backing store, the count of
microtasks scheduled by queueMicrotask, and a log of effect invocations
are gathered in the structure Sys.  The JavaScript for-of loop in flush
iterates with an index that rereads the live array length, so elements
pushed during iteration are visited; flushLoop models that with an
explicit position.  An exception thrown by an effect body is modelled by
a Boolean flag that aborts the remaining commands and propagates.

Renderer (function domRendering, src/main.js lines 190-237).  DOM nodes
are the inductive RNode; the host HTML parser applied by
transformHTMLStringToTemplate via template.innerHTML is a parameter of
type String to List RNode since it is a host facility, not repository
code.  cloneNode allocation is modelled by stamping each returned root
with a fresh identifier from a counter, and invocations of the parser
are counted so that the template-cache claims are observable.  The
JavaScript regular expression replace on __stub-(digits)__ patterns,
including the coercion of an out-of-range array access to the string
"undefined", is implemented character by character in replaceStubs.
-/

/-! ## Reactive system: data model -/

abbrev Key := String

abbrev Val := Int

abbrev EffectId := Nat

/-- Expressions an effect body can evaluate; a read goes through the proxy
get trap.  A missing value (JavaScript undefined, or the NaN produced by
adding it) is the none case. -/
inductive Expr where
  | lit : Val → Expr
  | read : Key → Expr
  | add : Expr → Expr → Expr
deriving DecidableEq

/-- Commands an effect body can perform: a proxied write of an evaluated
expression, or raising an exception. -/
inductive Cmd where
  | write : Key → Expr → Cmd
  | throwErr : Cmd
deriving DecidableEq

/-- An effect body is a sequence of commands; its identity (the function
reference in JavaScript) is its index in the environment. -/
abbrev Effect := List Cmd

/-- Whole state of one reactiveSystem() instance: the effect environment,
the proxied backing store (rawState), propertyKeyToEffectsMap,
currentEffect, effectsForFlush, the queued flag, the number of pending
queueMicrotask callbacks, and a log of effect invocations. -/
structure Sys where
  effects : List Effect
  store : List (Key × Option Val)
  depMap : List (Key × List EffectId)
  current : Option EffectId
  queue : List EffectId
  queued : Bool
  micro : Nat
  log : List EffectId
deriving DecidableEq

def storeRead : List (Key × Option Val) → Key → Option Val
  | [], _ => none
  | (k, v) :: rest, key => if k = key then v else storeRead rest key

def storeWrite : List (Key × Option Val) → Key → Option Val → List (Key × Option Val)
  | [], key, v => [(key, v)]
  | (k, w) :: rest, key, v =>
      if k = key then (key, v) :: rest else (k, w) :: storeWrite rest key v

def lookupDep : List (Key × List EffectId) → Key → Option (List EffectId)
  | [], _ => none
  | (k, es) :: rest, key => if k = key then some es else lookupDep rest key

/-- effects.push(currentEffect) on the entry stored under key (line 103). -/
def pushDep : List (Key × List EffectId) → Key → EffectId → List (Key × List EffectId)
  | [], _, _ => []
  | (k, es) :: rest, key, e =>
      if k = key then (k, es ++ [e]) :: rest else (k, es) :: pushDep rest key e

/-- Lines 96-98: if the map has no entry for the key, set an empty list. -/
def ensureDep (d : List (Key × List EffectId)) (k : Key) : List (Key × List EffectId) :=
  if (lookupDep d k).isSome then d else d ++ [(k, [])]

/-- The registration list of a key (empty when the entry is absent). -/
def depListOf (s : Sys) (k : Key) : List EffectId :=
  (lookupDep s.depMap k).getD []

/-- The get hook (createOnGet, lines 94-106): ensure the entry exists, then
append the current effect when one is active. -/
def onGet (k : Key) (s : Sys) : Sys :=
  match s.current with
  | some e => { s with depMap := pushDep (ensureDep s.depMap k) k e }
  | none => { s with depMap := ensureDep s.depMap k }

/-- The set hook (createOnSet, lines 130-145): when the map has an entry
for the key, push all of its effects onto effectsForFlush and, if no
flush is queued, mark one queued and schedule a microtask. -/
def onSet (k : Key) (s : Sys) : Sys :=
  match lookupDep s.depMap k with
  | some effs =>
      if s.queued then { s with queue := s.queue ++ effs }
      else { s with queue := s.queue ++ effs, queued := true, micro := s.micro + 1 }
  | none => s

/-- The proxy get trap (lines 154-158): run onGet, then Reflect.get. -/
def proxyGet (k : Key) (s : Sys) : Option Val × Sys :=
  (storeRead (onGet k s).store k, onGet k s)

/-- The proxy set trap (lines 160-164): run onSet, then Reflect.set. -/
def proxySet (k : Key) (v : Option Val) (s : Sys) : Sys :=
  let s1 := onSet k s
  { s1 with store := storeWrite s1.store k v }

/-- Evaluate an expression, performing its reads through the proxy in
left-to-right order. -/
def evalExpr : Expr → Sys → Option Val × Sys
  | .lit n, s => (some n, s)
  | .read k, s => proxyGet k s
  | .add a b, s =>
      let r1 := evalExpr a s
      let r2 := evalExpr b r1.2
      (r1.1.bind (fun xv => r2.1.map (fun yv => xv + yv)), r2.2)

/-- Run one command; the Boolean is true when it threw. -/
def runCmd : Cmd → Sys → Sys × Bool
  | .write k e, s =>
      let r := evalExpr e s
      (proxySet k r.1 r.2, false)
  | .throwErr, s => (s, true)

/-- Run a command list, aborting at the first thrown exception. -/
def runCmds : List Cmd → Sys → Sys × Bool
  | [], s => (s, false)
  | c :: cs, s =>
      let r := runCmd c s
      if r.2 then r else runCmds cs r.1

/-- Invoke the effect with the given identity (effect(), as called from
useEffect at line 87 or from flush at line 123), recording the invocation
in the log.  Invoking an identity outside the environment is the
TypeError of calling a non-function. -/
def runEffect (e : EffectId) (s : Sys) : Sys × Bool :=
  match s.effects.get? e with
  | some body => runCmds body { s with log := s.log ++ [e] }
  | none => ({ s with log := s.log ++ [e] }, true)

/-- useEffect (lines 85-89): set currentEffect, invoke the effect, clear
currentEffect.  When the effect throws, the clearing line is never
reached and the exception propagates. -/
def useEffect (e : EffectId) (s : Sys) : Sys × Bool :=
  let r := runEffect e { s with current := some e }
  if r.2 then r else ({ r.1 with current := none }, false)

/-- flush (lines 120-128): the for-of loop over effectsForFlush, position
by position against the live array, clearing the array only after the
iterator is exhausted.  Fuel bounds the loop; none means the fuel ran
out, some carries the thrown flag. -/
def flushLoop (fuel : Nat) (i : Nat) (s : Sys) : Option (Sys × Bool) :=
  match fuel with
  | 0 => none
  | fuel + 1 =>
      match s.queue.get? i with
      | some e =>
          let r := runEffect e s
          if r.2 then some r else flushLoop fuel (i + 1) r.1
      | none => some ({ s with queue := [] }, false)

/-- First statement of the queueMicrotask callback (line 140): the queued
flag is reset before flush runs; the host also consumes the scheduled
callback. -/
def cbEnter (s : Sys) : Sys :=
  { s with queued := false, micro := s.micro - 1 }

/-- The whole queueMicrotask callback (lines 139-142). -/
def flushCb (fuel : Nat) (s : Sys) : Option (Sys × Bool) :=
  flushLoop fuel 0 (cbEnter s)

/-- Drain the host microtask queue at the end of a turn, running scheduled
flush callbacks (including ones scheduled by earlier callbacks) until
none remain. -/
def runMicrotasks (fuel : Nat) (s : Sys) : Option (Sys × Bool) :=
  match fuel with
  | 0 => none
  | fuel + 1 =>
      if s.micro = 0 then some (s, false)
      else
        match flushCb fuel s with
        | none => none
        | some r => if r.2 then some r else runMicrotasks fuel r.1

/-- createState: fresh closure state of one reactiveSystem() call. -/
def initSys (effects : List Effect) : Sys :=
  { effects := effects, store := [], depMap := [], current := none,
    queue := [], queued := false, micro := 0, log := [] }

/-- A sequence of synchronous proxied writes within one turn. -/
def applyWrites : List (Key × Option Val) → Sys → Sys
  | [], s => s
  | (k, v) :: ws, s => applyWrites ws (proxySet k v s)

/-- The value of the last write to a key in a write sequence, when any. -/
def lastWrite : List (Key × Option Val) → Key → Option (Option Val)
  | [], _ => none
  | (k, v) :: ws, key =>
      match lastWrite ws key with
      | some r => some r
      | none => if k = key then some v else none

/-! ## Reference scenarios of the reactive system -/

/-- The demo effect: state.sum = state.foo + state.bar (lines 246-248). -/
def demoEffect : Effect := [.write "sum" (.add (.read "foo") (.read "bar"))]

def demoS0 : Sys := initSys [demoEffect]

def demoS1 : Sys := proxySet "foo" (some 1) demoS0

def demoS2 : Sys := proxySet "bar" (some 2) demoS1

def demoS3 : Sys := (useEffect 0 demoS2).1

/-- The demo reads state.sum to check it (line 250); the read creates the
empty dependency entry for the key sum. -/
def demoS4 : Sys := (proxyGet "sum" demoS3).2

def demoS5 : Sys := proxySet "foo" (some 2) demoS4

def demoS6 : Sys := ((runMicrotasks 20 demoS5).getD (demoS5, true)).1

def demoS7 : Sys := proxySet "bar" (some 3) demoS6

def demoS8 : Sys := ((runMicrotasks 20 demoS7).getD (demoS7, true)).1

def demoS9 : Sys := proxySet "bar" (some 4) (proxySet "foo" (some 4) demoS8)

def demoS10 : Sys := ((runMicrotasks 20 demoS9).getD (demoS9, true)).1

/-- Two chained effects: effect 0 copies k1 into k2, effect 1 copies k2
into out, so a flush of effect 0 enqueues effect 1 mid-flush. -/
def c2Effects : List Effect := [[.write "k2" (.read "k1")], [.write "out" (.read "k2")]]

def c2S0 : Sys := initSys c2Effects

def c2S1 : Sys := proxySet "k1" (some 7) c2S0

def c2S2 : Sys := (useEffect 0 c2S1).1

def c2S3 : Sys := (useEffect 1 c2S2).1

def c2S4 : Sys := proxySet "k1" (some 7) c2S3

def c2S5 : Sys := ((flushCb 20 c2S4).getD (c2S4, true)).1

/-- One effect copying x into y; reading y beforehand gives y a dependency
entry, so the write to y inside the flush passes the has-check. -/
def c3Effects : List Effect := [[.write "y" (.read "x")]]

def c3S0 : Sys := initSys c3Effects

def c3S1 : Sys := (useEffect 0 c3S0).1

def c3S2 : Sys := (proxyGet "y" c3S1).2

def c3Arm : Sys := proxySet "x" (some 5) c3S2

def c3After : Sys := ((flushCb 20 c3Arm).getD (c3Arm, true)).1

/-- One effect reading x twice: y = x + x. -/
def c5Effects : List Effect := [[.write "y" (.add (.read "x") (.read "x"))]]

def c5S0 : Sys := initSys c5Effects

def c5S1 : Sys := (useEffect 0 c5S0).1

def c5S2 : Sys := proxySet "x" (some 3) c5S1

def c5S3 : Sys := ((runMicrotasks 20 c5S2).getD (c5S2, true)).1

/-- A state whose active-effect slot holds effect 3, for instantiating the
registration lemma. -/
def c5Wit : Sys := { initSys [] with current := some 3 }

/-- An effect that throws immediately. -/
def c9Effects : List Effect := [[.throwErr]]

def c9S0 : Sys := initSys c9Effects

def c9S1 : Sys := (useEffect 0 c9S0).1

def c9S2 : Sys := (proxyGet "z" c9S1).2

/-- One effect copying x into y, for the no-change-detection scenario. -/
def c10Effects : List Effect := [[.write "y" (.read "x")]]

def c10S0 : Sys := (useEffect 0 (initSys c10Effects)).1

def c10S1 : Sys :=
  ((runMicrotasks 20 (proxySet "x" (some 3) c10S0)).getD (c10S0, true)).1

/-- Writing the value 3 to x again, though x already stores 3. -/
def c10S2 : Sys := proxySet "x" (some 3) c10S1

def c10S3 : Sys := ((runMicrotasks 20 c10S2).getD (c10S2, true)).1

/-! ## Renderer: data model -/

/- A DOM node is a text node or an element with a tag, attributes and
children.  Child sequences are the mutually defined RNodeList so that
recursion over the tree is structural. -/
mutual
inductive RNode where
  | text : String → RNode
  | elem : String → List (String × String) → RNodeList → RNode
inductive RNodeList where
  | nil : RNodeList
  | cons : RNode → RNodeList → RNodeList
end

def isDigitCh (c : Char) : Bool := '0' ≤ c && c ≤ '9'

def stubHead : List Char := "__stub-".toList

/-- Match the regular expression fragment __stub-(digits)__ at the head of
the character list, returning the digit group and the remainder.  The
digit run is maximal, as with the greedy quantifier: shortening it cannot
help, since a digit is not an underscore. -/
def matchStub (cs : List Char) : Option (String × List Char) :=
  if stubHead.isPrefixOf cs then
    let after := cs.drop stubHead.length
    let digits := after.takeWhile isDigitCh
    let rest := after.dropWhile isDigitCh
    if digits.isEmpty then none
    else if ['_', '_'].isPrefixOf rest then some (String.mk digits, rest.drop 2)
    else none
  else none

/-- Decimal value of a digit string. -/
def digitsToNat : Nat → List Char → Nat
  | acc, [] => acc
  | acc, c :: cs => digitsToNat (acc * 10 + (c.toNat - Char.toNat '0')) cs

/-- valueOfStubs[index] where index is the captured digit string: the
JavaScript property access yields the element only when the string is the
canonical decimal form of an index inside the array, and undefined
otherwise; String.replace then coerces undefined to "undefined". -/
def stubLookup (vals : List String) (digits : String) : String :=
  if Nat.repr (digitsToNat 0 digits.data) = digits then
    (vals.get? (digitsToNat 0 digits.data)).getD "undefined"
  else "undefined"

/-- Left-to-right scan of String.prototype.replace with a global regular
expression: at each position, substitute a match or emit the character.
The fuel is the length of the scanned list, which only shrinks. -/
def replaceStubsGo (vals : List String) : Nat → List Char → List Char
  | 0, cs => cs
  | _ + 1, [] => []
  | fuel + 1, c :: cs =>
      match matchStub (c :: cs) with
      | some (digits, rest) => (stubLookup vals digits).toList ++ replaceStubsGo vals fuel rest
      | none => c :: replaceStubsGo vals fuel cs

/-- replaceStubs (lines 200-202). -/
def replaceStubs (stringWithStubs : String) (valueOfStubs : List String) : String :=
  String.mk (replaceStubsGo valueOfStubs stringWithStubs.data.length stringWithStubs.data)

/-- True when the string contains a match of __stub-(digits)__. -/
def hasStub : List Char → Bool
  | [] => false
  | c :: cs => (matchStub (c :: cs)).isSome || hasStub cs

/- The textContent getter: concatenation of all descendant text, in tree
order. -/
mutual
def textContentN : RNode → String
  | .text s => s
  | .elem _ _ cs => textContentOf cs
def textContentOf : RNodeList → String
  | .nil => ""
  | .cons n rest => textContentN n ++ textContentOf rest
end

/-- The textContent setter: all children are replaced by one text node
holding the string, or removed when it is empty. -/
def setTextChildren (s : String) : RNodeList :=
  if s = "" then .nil else .cons (.text s) .nil

/-- A compiled template: the markup string handed to the parser and the
parsed content of the template element. -/
structure Templ where
  htmlString : String
  content : RNodeList

/-- Closure state of one domRendering() call: tokensToTemplates (the token
identity is a number standing for the array object), a count of parser
invocations, and the allocator for clone identities. -/
structure RendState where
  cache : List (Nat × Templ)
  parseCount : Nat
  nextNodeId : Nat

def lookupCache : List (Nat × Templ) → Nat → Option Templ
  | [], _ => none
  | (i, t) :: rest, id0 => if i = id0 then some t else lookupCache rest id0

/-- Lines 208: one stub marker string per expression position. -/
def makeStubs (n : Nat) : List String :=
  (List.range n).map (fun i => "__stub-" ++ Nat.repr i ++ "__")

/-- Line 209: tokens.map((token, index) => (stubs[index - 1] ?? '') + token);
the access at index -1 yields undefined, defaulted to the empty string. -/
def tokensWithStubs (tokens : List String) (stubs : List String) : List String :=
  tokens.enum.map (fun p => (if p.1 = 0 then "" else (stubs.get? (p.1 - 1)).getD "") ++ p.2)

/-- Line 210: join the interleaved fragments into one markup string. -/
def htmlStringWithStubs (tokens : List String) (n : Nat) : String :=
  String.join (tokensWithStubs tokens (makeStubs n))

/-- transformHTMLStringToTemplate (lines 193-198): the host parser, passed
as a parameter, turns the markup string into template content. -/
def transformHTMLStringToTemplate (parse : String → RNodeList) (h : String) : Templ :=
  { htmlString := h, content := parse h }

/-- firstElementChild: the first child that is an element, skipping text
nodes; none models the null of a template with no element child. -/
def firstElementChild : RNodeList → Option (String × List (String × String) × RNodeList)
  | .nil => none
  | .cons (.text _) rest => firstElementChild rest
  | .cons (.elem t a c) _ => some (t, a, c)

/-- The second substitution pass (lines 219-225): rewrite every attribute
value through replaceStubs, then assign textContent the replaced text. -/
def substitutePass (expressions : List String) (tag : String)
    (attrs : List (String × String)) (children : RNodeList) : RNode :=
  .elem tag (attrs.map (fun p => (p.1, replaceStubs p.2 expressions)))
    (setTextChildren (replaceStubs (textContentOf children) expressions))

/-- Lines 216-227 applied to one compiled template: clone its content (the
clone root gets a fresh identity), take the first element child, run the
substitution pass. -/
def instantiate (expressions : List String) (t : Templ) (cloneId : Nat) :
    Option (RNode × Nat) :=
  match firstElementChild t.content with
  | none => none
  | some (tag, attrs, children) =>
      some (substitutePass expressions tag attrs children, cloneId)

/-- html (lines 204-228): look the token identity up in the cache; on a
miss build the stub markup, invoke the parser and store the template;
then clone and substitute. -/
def html (parse : String → RNodeList) (tokensId : Nat) (tokens : List String)
    (expressions : List String) (st : RendState) : Option (RNode × Nat) × RendState :=
  let hit := lookupCache st.cache tokensId
  let templ :=
    match hit with
    | some t => t
    | none => transformHTMLStringToTemplate parse (htmlStringWithStubs tokens expressions.length)
  let st1 :=
    match hit with
    | some _ => st
    | none =>
        { st with cache := st.cache ++ [(tokensId, templ)],
                  parseCount := st.parseCount + 1 }
  (instantiate expressions templ st1.nextNodeId,
   { st1 with nextNodeId := st1.nextNodeId + 1 })

/-- createRenderer: fresh closure state of one domRendering() call. -/
def initRend : RendState := { cache := [], parseCount := 0, nextNodeId := 0 }

/-! ## Renderer scenarios -/

/-- The literal fragments of the render template
div class="(expr)">(expr)</div (line 231). -/
def renderTokens : List String := ["<div class=\"", "\">", "</div>"]

/-- Host parse of the stub markup of the render template, as the browser
parser produces it. -/
def demoParse : String → RNodeList := fun _ =>
  .cons (.elem "div" [("class", "__stub-0__")] (.cons (.text "__stub-1__") .nil)) .nil

/-- The compiled template of the render call site. -/
def demoTempl : Templ :=
  transformHTMLStringToTemplate demoParse (htmlStringWithStubs renderTokens 2)

/-- Renderer state after a first render call, holding the cached template. -/
def c6CacheSt : RendState :=
  (html demoParse 0 renderTokens ["red", "Red"] initRend).2

/-- Host parse of a template whose literal text is a stub marker with no
matching expression. -/
def c7Parse : String → RNodeList := fun _ =>
  .cons (.elem "div" [] (.cons (.text "__stub-5__") .nil)) .nil

/-- Host parse of a template with a nested element and no stub anywhere. -/
def c8Parse : String → RNodeList := fun _ =>
  .cons (.elem "div" [] (.cons (.elem "span" [] (.cons (.text "a") .nil)) .nil)) .nil

/-! ## Field-preservation lemmas for the reactive system -/

@[simp]
theorem onGet_store (k : Key) (s : Sys) : (onGet k s).store = s.store := by
  cases h : s.current <;> simp [onGet, h]

@[simp]
theorem onGet_current (k : Key) (s : Sys) : (onGet k s).current = s.current := by
  cases h : s.current <;> simp [onGet, h]

@[simp]
theorem onGet_queue (k : Key) (s : Sys) : (onGet k s).queue = s.queue := by
  cases h : s.current <;> simp [onGet, h]

@[simp]
theorem onGet_queued (k : Key) (s : Sys) : (onGet k s).queued = s.queued := by
  cases h : s.current <;> simp [onGet, h]

@[simp]
theorem onGet_micro (k : Key) (s : Sys) : (onGet k s).micro = s.micro := by
  cases h : s.current <;> simp [onGet, h]

@[simp]
theorem onGet_log (k : Key) (s : Sys) : (onGet k s).log = s.log := by
  cases h : s.current <;> simp [onGet, h]

@[simp]
theorem onGet_effects (k : Key) (s : Sys) : (onGet k s).effects = s.effects := by
  cases h : s.current <;> simp [onGet, h]

@[simp]
theorem onSet_store (k : Key) (s : Sys) : (onSet k s).store = s.store := by
  cases h : lookupDep s.depMap k with
  | none => simp [onSet, h]
  | some effs => simp only [onSet, h]; split <;> rfl

@[simp]
theorem onSet_depMap (k : Key) (s : Sys) : (onSet k s).depMap = s.depMap := by
  cases h : lookupDep s.depMap k with
  | none => simp [onSet, h]
  | some effs => simp only [onSet, h]; split <;> rfl

@[simp]
theorem onSet_current (k : Key) (s : Sys) : (onSet k s).current = s.current := by
  cases h : lookupDep s.depMap k with
  | none => simp [onSet, h]
  | some effs => simp only [onSet, h]; split <;> rfl

@[simp]
theorem onSet_log (k : Key) (s : Sys) : (onSet k s).log = s.log := by
  cases h : lookupDep s.depMap k with
  | none => simp [onSet, h]
  | some effs => simp only [onSet, h]; split <;> rfl

@[simp]
theorem onSet_effects (k : Key) (s : Sys) : (onSet k s).effects = s.effects := by
  cases h : lookupDep s.depMap k with
  | none => simp [onSet, h]
  | some effs => simp only [onSet, h]; split <;> rfl

@[simp]
theorem proxySet_store (k : Key) (v : Option Val) (s : Sys) :
    (proxySet k v s).store = storeWrite s.store k v := by
  simp [proxySet]

@[simp]
theorem proxySet_depMap (k : Key) (v : Option Val) (s : Sys) :
    (proxySet k v s).depMap = s.depMap := by
  simp [proxySet]

@[simp]
theorem proxySet_current (k : Key) (v : Option Val) (s : Sys) :
    (proxySet k v s).current = s.current := by
  simp [proxySet]

@[simp]
theorem proxySet_log (k : Key) (v : Option Val) (s : Sys) :
    (proxySet k v s).log = s.log := by
  simp [proxySet]

@[simp]
theorem proxySet_effects (k : Key) (v : Option Val) (s : Sys) :
    (proxySet k v s).effects = s.effects := by
  simp [proxySet]

@[simp]
theorem evalExpr_store (ex : Expr) (s : Sys) : ((evalExpr ex s).2).store = s.store := by
  induction ex generalizing s with
  | lit n => rfl
  | read k => simp [evalExpr, proxyGet]
  | add a b iha ihb => simp [evalExpr, iha, ihb]

@[simp]
theorem evalExpr_current (ex : Expr) (s : Sys) : ((evalExpr ex s).2).current = s.current := by
  induction ex generalizing s with
  | lit n => rfl
  | read k => simp [evalExpr, proxyGet]
  | add a b iha ihb => simp [evalExpr, iha, ihb]

@[simp]
theorem evalExpr_log (ex : Expr) (s : Sys) : ((evalExpr ex s).2).log = s.log := by
  induction ex generalizing s with
  | lit n => rfl
  | read k => simp [evalExpr, proxyGet]
  | add a b iha ihb => simp [evalExpr, iha, ihb]

@[simp]
theorem evalExpr_effects (ex : Expr) (s : Sys) : ((evalExpr ex s).2).effects = s.effects := by
  induction ex generalizing s with
  | lit n => rfl
  | read k => simp [evalExpr, proxyGet]
  | add a b iha ihb => simp [evalExpr, iha, ihb]

@[simp]
theorem runCmd_current (c : Cmd) (s : Sys) : ((runCmd c s).1).current = s.current := by
  cases c <;> simp [runCmd]

@[simp]
theorem runCmd_log (c : Cmd) (s : Sys) : ((runCmd c s).1).log = s.log := by
  cases c <;> simp [runCmd]

@[simp]
theorem runCmd_effects (c : Cmd) (s : Sys) : ((runCmd c s).1).effects = s.effects := by
  cases c <;> simp [runCmd]

@[simp]
theorem runCmds_current (cs : List Cmd) (s : Sys) :
    ((runCmds cs s).1).current = s.current := by
  induction cs generalizing s with
  | nil => rfl
  | cons c cs ih => simp only [runCmds]; split <;> simp [ih]

@[simp]
theorem runCmds_log (cs : List Cmd) (s : Sys) : ((runCmds cs s).1).log = s.log := by
  induction cs generalizing s with
  | nil => rfl
  | cons c cs ih => simp only [runCmds]; split <;> simp [ih]

@[simp]
theorem runCmds_effects (cs : List Cmd) (s : Sys) :
    ((runCmds cs s).1).effects = s.effects := by
  induction cs generalizing s with
  | nil => rfl
  | cons c cs ih => simp only [runCmds]; split <;> simp [ih]

@[simp]
theorem runEffect_current (e : EffectId) (s : Sys) :
    ((runEffect e s).1).current = s.current := by
  unfold runEffect
  cases h : s.effects.get? e <;> simp

@[simp]
theorem runEffect_log (e : EffectId) (s : Sys) :
    ((runEffect e s).1).log = s.log ++ [e] := by
  unfold runEffect
  cases h : s.effects.get? e <;> simp

@[simp]
theorem runEffect_effects (e : EffectId) (s : Sys) :
    ((runEffect e s).1).effects = s.effects := by
  unfold runEffect
  cases h : s.effects.get? e <;> simp

/-! ## Dependency-map lemmas -/

theorem lookupDep_append (d d2 : List (Key × List EffectId)) (key : Key) :
    lookupDep (d ++ d2) key =
      match lookupDep d key with
      | some x => some x
      | none => lookupDep d2 key := by
  induction d with
  | nil => simp [lookupDep]
  | cons p rest ih =>
      obtain ⟨k, es⟩ := p
      by_cases hk : k = key <;> simp [lookupDep, hk, ih]

theorem lookupDep_ensureDep_self (d : List (Key × List EffectId)) (k : Key) :
    lookupDep (ensureDep d k) k = some ((lookupDep d k).getD []) := by
  unfold ensureDep
  cases h : lookupDep d k with
  | some es => simp [h]
  | none => simp [h, lookupDep_append, lookupDep]

theorem lookupDep_ensureDep_getD (d : List (Key × List EffectId)) (k k2 : Key) :
    (lookupDep (ensureDep d k) k2).getD [] = (lookupDep d k2).getD [] := by
  unfold ensureDep
  split
  · rfl
  · rw [lookupDep_append]
    cases h2 : lookupDep d k2 with
    | some es => simp
    | none => by_cases hk : k = k2 <;> simp [lookupDep, hk]

theorem lookupDep_pushDep_self (d : List (Key × List EffectId)) (k : Key)
    (e : EffectId) (es : List EffectId) (h : lookupDep d k = some es) :
    lookupDep (pushDep d k e) k = some (es ++ [e]) := by
  induction d with
  | nil => simp [lookupDep] at h
  | cons p rest ih =>
      obtain ⟨k1, es1⟩ := p
      by_cases hk : k1 = k
      · subst hk
        simp [lookupDep] at h
        subst h
        simp [pushDep, lookupDep]
      · simp [lookupDep, hk] at h
        simp [pushDep, lookupDep, hk, ih h]

theorem lookupDep_pushDep_ne (d : List (Key × List EffectId)) (k : Key)
    (e : EffectId) (k2 : Key) (hk : k ≠ k2) :
    lookupDep (pushDep d k e) k2 = lookupDep d k2 := by
  induction d with
  | nil => simp [pushDep]
  | cons p rest ih =>
      obtain ⟨k1, es1⟩ := p
      by_cases h1 : k1 = k
      · subst h1
        simp [pushDep, lookupDep, hk, ih]
      · by_cases h2 : k1 = k2 <;>
          simp [pushDep, lookupDep, h1, h2, ih, Ne.symm hk]

/-- Registration: a read with an active effect appends that effect to the
key's list, never deduplicating. -/
theorem depListOf_onGet_active (k : Key) (e : EffectId) (s : Sys)
    (h : s.current = some e) :
    depListOf (onGet k s) k = depListOf s k ++ [e] := by
  unfold depListOf onGet
  rw [h]
  simp only
  rw [lookupDep_pushDep_self _ _ _ _ (lookupDep_ensureDep_self s.depMap k)]
  simp

/-- A read with no active effect changes no key's registration list. -/
theorem depListOf_onGet_idle (k k2 : Key) (s : Sys) (h : s.current = none) :
    depListOf (onGet k s) k2 = depListOf s k2 := by
  unfold depListOf onGet
  rw [h]
  simp only
  exact lookupDep_ensureDep_getD s.depMap k k2

theorem depListOf_evalExpr_idle (ex : Expr) (s : Sys) (h : s.current = none)
    (k2 : Key) : depListOf ((evalExpr ex s).2) k2 = depListOf s k2 := by
  induction ex generalizing s with
  | lit n => rfl
  | read k => simpa [evalExpr, proxyGet] using depListOf_onGet_idle k k2 s h
  | add a b iha ihb =>
      simp only [evalExpr]
      rw [ihb _ (by rw [evalExpr_current]; exact h), iha _ h]

theorem depListOf_proxySet (k : Key) (v : Option Val) (s : Sys) (k2 : Key) :
    depListOf (proxySet k v s) k2 = depListOf s k2 := by
  unfold depListOf
  rw [proxySet_depMap]

theorem depListOf_runCmd_idle (c : Cmd) (s : Sys) (h : s.current = none)
    (k2 : Key) : depListOf ((runCmd c s).1) k2 = depListOf s k2 := by
  cases c with
  | write k e =>
      simp only [runCmd]
      rw [depListOf_proxySet, depListOf_evalExpr_idle e s h]
  | throwErr => rfl

theorem depListOf_runCmds_idle (cs : List Cmd) (s : Sys) (h : s.current = none)
    (k2 : Key) : depListOf ((runCmds cs s).1) k2 = depListOf s k2 := by
  induction cs generalizing s with
  | nil => rfl
  | cons c cs ih =>
      simp only [runCmds]
      split
      · exact depListOf_runCmd_idle c s h k2
      · rw [ih _ (by rw [runCmd_current]; exact h), depListOf_runCmd_idle c s h k2]

theorem depListOf_runEffect_idle (e : EffectId) (s : Sys) (h : s.current = none)
    (k2 : Key) : depListOf ((runEffect e s).1) k2 = depListOf s k2 := by
  unfold runEffect
  cases s.effects.get? e with
  | some body => exact depListOf_runCmds_idle body { s with log := s.log ++ [e] } h k2
  | none => rfl

/-! ## useEffect lemmas -/

theorem useEffect_log (e : EffectId) (s : Sys) :
    ((useEffect e s).1).log = s.log ++ [e] := by
  simp only [useEffect]
  split <;> simp

theorem useEffect_current_ok (e : EffectId) (s : Sys)
    (h : (useEffect e s).2 = false) : ((useEffect e s).1).current = none := by
  cases hr : (runEffect e { s with current := some e }).2 with
  | false => simp [useEffect, hr]
  | true => simp [useEffect, hr] at h

theorem useEffect_current_thrown (e : EffectId) (s : Sys)
    (h : (useEffect e s).2 = true) : ((useEffect e s).1).current = some e := by
  cases hr : (runEffect e { s with current := some e }).2 with
  | false => simp [useEffect, hr] at h
  | true => simp [useEffect, hr]

/-! ## Flush lemmas -/

theorem flushLoop_queue_nil (fuel : Nat) :
    ∀ (i : Nat) (s s1 : Sys), flushLoop fuel i s = some (s1, false) → s1.queue = [] := by
  induction fuel with
  | zero => intro i s s1 h; simp [flushLoop] at h
  | succ fuel ih =>
      intro i s s1 h
      simp only [flushLoop] at h
      cases hq : s.queue.get? i with
      | some e =>
          rw [hq] at h
          simp only at h
          split at h
          · rename_i ht
            simp only [Option.some.injEq] at h
            rw [h] at ht
            simp at ht
          · exact ih (i + 1) _ s1 h
      | none =>
          rw [hq] at h
          simp only [Option.some.injEq, Prod.mk.injEq] at h
          rw [← h.1]

theorem flushLoop_current (fuel : Nat) :
    ∀ (i : Nat) (s : Sys) (r : Sys × Bool), flushLoop fuel i s = some r →
      r.1.current = s.current := by
  induction fuel with
  | zero => intro i s r h; simp [flushLoop] at h
  | succ fuel ih =>
      intro i s r h
      simp only [flushLoop] at h
      cases hq : s.queue.get? i with
      | some e =>
          rw [hq] at h
          simp only at h
          split at h
          · simp only [Option.some.injEq] at h
            rw [← h, runEffect_current]
          · rw [ih (i + 1) _ r h, runEffect_current]
      | none =>
          rw [hq] at h
          simp only [Option.some.injEq] at h
          rw [← h]

theorem flushLoop_depListOf_idle (fuel : Nat) :
    ∀ (i : Nat) (s : Sys) (r : Sys × Bool), s.current = none →
      flushLoop fuel i s = some r → ∀ k, depListOf r.1 k = depListOf s k := by
  induction fuel with
  | zero => intro i s r _ h; simp [flushLoop] at h
  | succ fuel ih =>
      intro i s r hc h k
      simp only [flushLoop] at h
      cases hq : s.queue.get? i with
      | some e =>
          rw [hq] at h
          simp only at h
          split at h
          · simp only [Option.some.injEq] at h
            rw [← h]
            exact depListOf_runEffect_idle e s hc k
          · rw [ih (i + 1) _ r (by rw [runEffect_current]; exact hc) h k]
            exact depListOf_runEffect_idle e s hc k
      | none =>
          rw [hq] at h
          simp only [Option.some.injEq] at h
          rw [← h]
          rfl

theorem flushCb_queue_nil (fuel : Nat) (s s1 : Sys)
    (h : flushCb fuel s = some (s1, false)) : s1.queue = [] :=
  flushLoop_queue_nil fuel 0 (cbEnter s) s1 h

/-! ## Store and write-sequence lemmas -/

theorem storeRead_storeWrite (st : List (Key × Option Val)) (k : Key)
    (v : Option Val) (k2 : Key) :
    storeRead (storeWrite st k v) k2 = if k = k2 then v else storeRead st k2 := by
  induction st with
  | nil => by_cases hk : k = k2 <;> simp [storeWrite, storeRead, hk]
  | cons p rest ih =>
      obtain ⟨k1, w⟩ := p
      by_cases h1 : k1 = k
      · subst h1
        by_cases h2 : k1 = k2 <;> simp [storeWrite, storeRead, h2, ih]
      · by_cases h2 : k1 = k2
        · subst h2
          have hk : ¬(k = k1) := fun hh => h1 hh.symm
          simp [storeWrite, storeRead, h1, hk]
        · simp [storeRead, storeWrite, h1, h2, ih]

theorem applyWrites_log (ws : List (Key × Option Val)) :
    ∀ s : Sys, (applyWrites ws s).log = s.log := by
  induction ws with
  | nil => intro s; rfl
  | cons p ws ih =>
      intro s
      obtain ⟨k, v⟩ := p
      rw [applyWrites, ih, proxySet_log]

theorem applyWrites_store (ws : List (Key × Option Val)) :
    ∀ (s : Sys) (key : Key),
      storeRead (applyWrites ws s).store key =
        (lastWrite ws key).getD (storeRead s.store key) := by
  induction ws with
  | nil => intro s key; rfl
  | cons p ws ih =>
      intro s key
      obtain ⟨k, v⟩ := p
      rw [applyWrites, ih, lastWrite]
      cases h : lastWrite ws key with
      | some r => simp
      | none =>
          simp only [Option.getD_none]
          rw [proxySet_store, storeRead_storeWrite]
          by_cases hk : k = key <;> simp [hk]

/-! ## Renderer lemmas -/

theorem lookupCache_append_self (c : List (Nat × Templ)) (id0 : Nat) (t : Templ)
    (h : lookupCache c id0 = none) : lookupCache (c ++ [(id0, t)]) id0 = some t := by
  induction c with
  | nil => simp [lookupCache]
  | cons p rest ih =>
      obtain ⟨i, t1⟩ := p
      by_cases hi : i = id0
      · simp [lookupCache, hi] at h
      · simp only [lookupCache, hi] at h
        simp only [List.cons_append, lookupCache, hi, if_neg]
        exact ih h

theorem html_hit (parse : String → RNodeList) (tokensId : Nat)
    (tokens : List String) (exprs : List String) (st : RendState) (t : Templ)
    (h : lookupCache st.cache tokensId = some t) :
    html parse tokensId tokens exprs st =
      (instantiate exprs t st.nextNodeId,
       { st with nextNodeId := st.nextNodeId + 1 }) := by
  simp [html, h]

theorem html_miss (parse : String → RNodeList) (tokensId : Nat)
    (tokens : List String) (exprs : List String) (st : RendState)
    (h : lookupCache st.cache tokensId = none) :
    html parse tokensId tokens exprs st =
      (instantiate exprs
         (transformHTMLStringToTemplate parse (htmlStringWithStubs tokens exprs.length))
         st.nextNodeId,
       { st with
           cache := st.cache ++
             [(tokensId,
               transformHTMLStringToTemplate parse (htmlStringWithStubs tokens exprs.length))],
           parseCount := st.parseCount + 1,
           nextNodeId := st.nextNodeId + 1 }) := by
  simp [html, h]

theorem html_nextNodeId (parse : String → RNodeList) (tokensId : Nat)
    (tokens : List String) (exprs : List String) (st : RendState) :
    ((html parse tokensId tokens exprs st).2).nextNodeId = st.nextNodeId + 1 := by
  cases h : lookupCache st.cache tokensId <;> simp [html, h]

theorem instantiate_id (exprs : List String) (t : Templ) (cid : Nat)
    (r : RNode) (i : Nat) (h : instantiate exprs t cid = some (r, i)) : i = cid := by
  unfold instantiate at h
  cases hf : firstElementChild t.content with
  | none => rw [hf] at h; simp at h
  | some trip =>
      rw [hf] at h
      obtain ⟨tag, attrs, children⟩ := trip
      simp only [Option.some.injEq, Prod.mk.injEq] at h
      exact h.2.symm

theorem html_fst_id (parse : String → RNodeList) (tokensId : Nat)
    (tokens : List String) (exprs : List String) (st : RendState)
    (r : RNode) (i : Nat) (h : (html parse tokensId tokens exprs st).1 = some (r, i)) :
    i = st.nextNodeId := by
  cases hc : lookupCache st.cache tokensId with
  | some t =>
      rw [html_hit parse tokensId tokens exprs st t hc] at h
      exact instantiate_id _ _ _ _ _ h
  | none =>
      rw [html_miss parse tokensId tokens exprs st hc] at h
      exact instantiate_id _ _ _ _ _ h

theorem replaceStubsGo_no_stub (vals : List String) (fuel : Nat) :
    ∀ cs : List Char, hasStub cs = false → replaceStubsGo vals fuel cs = cs := by
  induction fuel with
  | zero => intro cs _; rfl
  | succ fuel ih =>
      intro cs h
      cases cs with
      | nil => rfl
      | cons c cs2 =>
          simp only [hasStub, Bool.or_eq_false_iff] at h
          simp only [replaceStubsGo]
          cases hm : matchStub (c :: cs2) with
          | some p =>
              rw [hm] at h
              simp at h
          | none =>
              rw [ih cs2 h.2]

theorem replaceStubs_no_stub (s : String) (vals : List String)
    (h : hasStub s.data = false) : replaceStubs s vals = s := by
  unfold replaceStubs
  rw [replaceStubsGo_no_stub vals _ s.data h]

/-! ## onSet lemmas for a key with an existing dependency entry -/

theorem onSet_queue_hit (k : Key) (s : Sys) (effs : List EffectId)
    (hl : lookupDep s.depMap k = some effs) :
    (onSet k s).queue = s.queue ++ effs := by
  simp only [onSet, hl]
  split <;> rfl

theorem onSet_queued_hit (k : Key) (s : Sys) (effs : List EffectId)
    (hl : lookupDep s.depMap k = some effs) : (onSet k s).queued = true := by
  simp only [onSet, hl]
  split
  · rename_i h
    exact h
  · rfl

theorem onSet_micro_hit (k : Key) (s : Sys) (effs : List EffectId)
    (hl : lookupDep s.depMap k = some effs) (h0 : s.queued = false) :
    (onSet k s).micro = s.micro + 1 := by
  simp [onSet, hl, h0]

theorem proxySet_queued_true (k : Key) (v : Option Val) (s : Sys)
    (h : s.queued = true) : (proxySet k v s).queued = true := by
  show (onSet k s).queued = true
  cases hl : lookupDep s.depMap k with
  | none => simp [onSet, hl, h]
  | some effs => simp [onSet, hl, h]

/-! ## Claim theorems -/

/-- Claim C1: writes within one synchronous turn are coalesced.  During a
sequence of synchronous proxied writes no effect is ever invoked (the
invocation log is unchanged) and the store afterwards holds the last
value written to each key, so an effect running in the deferred flush
observes only final values.  The reference scenario holds exactly: after
foo=1, bar=2 and registration of sum = foo + bar, sum is 3; after
foo=2, sum stays 3 until the microtask flush and is 4 after it; after
bar=3 and a flush, sum is 5; after foo=4 and bar=4 in one turn, sum is
still 5 before the flush and 8 after it. -/
theorem claim1_turn_coalescing :
    (∀ (ws : List (Key × Option Val)) (s : Sys), (applyWrites ws s).log = s.log) ∧
    (∀ (ws : List (Key × Option Val)) (s : Sys) (key : Key),
       storeRead (applyWrites ws s).store key =
         (lastWrite ws key).getD (storeRead s.store key)) ∧
    (proxyGet "sum" demoS3).1 = some 3 ∧
    (proxyGet "sum" demoS5).1 = some 3 ∧
    runMicrotasks 20 demoS5 = some (demoS6, false) ∧
    (proxyGet "sum" demoS6).1 = some 4 ∧
    runMicrotasks 20 demoS7 = some (demoS8, false) ∧
    (proxyGet "sum" demoS8).1 = some 5 ∧
    (proxyGet "sum" demoS9).1 = some 5 ∧
    runMicrotasks 20 demoS9 = some (demoS10, false) ∧
    (proxyGet "sum" demoS10).1 = some 8 :=
  ⟨applyWrites_log, applyWrites_store, by decide, by decide, by decide, by decide,
   by decide, by decide, by decide, by decide, by decide⟩

/-- Claim C2: a flush pass consumes entries appended to the pending queue
by effects running in the same pass, in first-in-first-out order, and
only returns once the queue is exhausted and cleared.  In the scenario,
effect 0 (queued by the write to k1) writes k2 during the flush, which
enqueues effect 1; one flush callback runs both, in order, and effect 1
sees the value effect 0 wrote. -/
theorem claim2_same_pass_consumption :
    (∀ (fuel : Nat) (s s1 : Sys), flushCb fuel s = some (s1, false) → s1.queue = []) ∧
    flushCb 20 c2S4 = some (c2S5, false) ∧
    c2S4.log = [0, 1] ∧
    c2S5.log = c2S4.log ++ [0, 1] ∧
    storeRead c2S5.store "out" = some 7 :=
  ⟨flushCb_queue_nil, by decide, by decide, by decide, by decide⟩

theorem claim2_witness : c2S5.queue = [] :=
  claim2_same_pass_consumption.1 20 c2S4 c2S5 (by decide)

/-- Claim C3 counterexample: the queued flag is not true at every instant
during the execution of queued effects.  In the armed state c3Arm the
flag is true, but the microtask callback resets it to false (cbEnter)
before the flush loop runs a single queued effect: the state in which
effect 0 executes has queued = false while the effect is still pending
in the queue.  Consequently the mid-flush write to the tracked key y
schedules a second microtask, so after the flush completes micro = 1 and
queued = true, instead of the claimed reset to false after exhaustion. -/
theorem claim3_counterexample :
    c3Arm.queued = true ∧
    c3Arm.micro = 1 ∧
    (cbEnter c3Arm).queued = false ∧
    (cbEnter c3Arm).queue = [0] ∧
    flushCb 20 c3Arm = some (c3After, false) ∧
    c3After.micro = 1 ∧
    c3After.queued = true := by
  decide

/-- Claim C3 amended: the queued flag is true from the first arming write
until the flush callback begins; the callback resets it to false before
draining the queue (so during the execution of queued effects it is
false unless a mid-flush write re-arms it), while the pending queue
itself is cleared only after exhaustion; further writes while the flag
is true leave it true. -/
theorem claim3_flush_flag_amended :
    (∀ s : Sys, (cbEnter s).queued = false ∧ (cbEnter s).queue = s.queue) ∧
    (∀ (fuel : Nat) (s : Sys), flushCb fuel s = flushLoop fuel 0 (cbEnter s)) ∧
    (∀ (fuel i : Nat) (s s1 : Sys), flushLoop fuel i s = some (s1, false) → s1.queue = []) ∧
    (∀ (k : Key) (v : Option Val) (s : Sys), s.queued = true → (proxySet k v s).queued = true) :=
  ⟨fun _ => ⟨rfl, rfl⟩, fun _ _ => rfl, flushLoop_queue_nil, proxySet_queued_true⟩

theorem claim3_witness :
    c3After.queue = [] ∧ (proxySet "q" (some 1) c3Arm).queued = true :=
  ⟨claim3_flush_flag_amended.2.2.1 20 0 (cbEnter c3Arm) c3After (by decide),
   claim3_flush_flag_amended.2.2.2 "q" (some 1) c3Arm (by decide)⟩

/-- Claim C4: useEffect sets the active-effect slot, invokes the effect
exactly once synchronously (the invocation log grows by exactly that one
entry, since writes only enqueue and never invoke), and clears the slot
on normal completion; the flush loop never touches the slot, and when it
starts with an empty slot every re-execution it performs leaves every
key's registration list unchanged. -/
theorem claim4_useEffect_contract :
    (∀ (e : EffectId) (s : Sys), ((useEffect e s).1).log = s.log ++ [e]) ∧
    (∀ (e : EffectId) (s : Sys), (useEffect e s).2 = false →
       ((useEffect e s).1).current = none) ∧
    (∀ (fuel i : Nat) (s : Sys) (r : Sys × Bool), flushLoop fuel i s = some r →
       r.1.current = s.current) ∧
    (∀ (fuel i : Nat) (s : Sys) (r : Sys × Bool), s.current = none →
       flushLoop fuel i s = some r → ∀ k, depListOf r.1 k = depListOf s k) :=
  ⟨useEffect_log, useEffect_current_ok, flushLoop_current, flushLoop_depListOf_idle⟩

theorem claim4_witness :
    ((useEffect 0 demoS2).1).log = demoS2.log ++ [0] ∧
    ((useEffect 0 demoS2).1).current = none ∧
    c2S5.current = (cbEnter c2S4).current ∧
    depListOf c2S5 "k1" = depListOf (cbEnter c2S4) "k1" :=
  ⟨claim4_useEffect_contract.1 0 demoS2,
   claim4_useEffect_contract.2.1 0 demoS2 (by decide),
   claim4_useEffect_contract.2.2.1 20 0 (cbEnter c2S4) (c2S5, false) (by decide),
   claim4_useEffect_contract.2.2.2 20 0 (cbEnter c2S4) (c2S5, false) (by decide)
     (by decide) "k1"⟩

/-- Claim C5: dependency registration is not deduplicated.  Every read of
a key while an effect is active appends that effect to the key's list,
even when already present; the effect c5Effects reads x twice, so x's
list is [0, 0], one write to x enqueues both entries, and the flush
invokes the effect once per entry (the log grows by [0, 0]). -/
theorem claim5_no_dedup :
    (∀ (k : Key) (e : EffectId) (s : Sys), s.current = some e →
       depListOf (onGet k s) k = depListOf s k ++ [e]) ∧
    depListOf c5S1 "x" = [0, 0] ∧
    c5S2.queue = [0, 0] ∧
    runMicrotasks 20 c5S2 = some (c5S3, false) ∧
    c5S3.log = c5S1.log ++ [0, 0] ∧
    storeRead c5S3.store "y" = some 6 :=
  ⟨depListOf_onGet_active, by decide, by decide, by decide, by decide, by decide⟩

theorem claim5_witness :
    depListOf (onGet "w" c5Wit) "w" = depListOf c5Wit "w" ++ [3] :=
  claim5_no_dedup.1 "w" 3 c5Wit (by decide)

/-- Claim C6: the markup of a token-sequence identity is parsed at most
once.  A cache hit performs no parse and no cache change, reusing the
stored template and only cloning (a fresh clone identity) and
substituting; a miss parses exactly once and stores the template under
the identity; every call allocates a fresh clone identity, so two calls
return distinct nodes. -/
theorem claim6_template_cache :
    (∀ (parse : String → RNodeList) (tokensId : Nat) (tokens exprs : List String)
       (st : RendState) (t : Templ), lookupCache st.cache tokensId = some t →
         html parse tokensId tokens exprs st =
           (instantiate exprs t st.nextNodeId,
            { st with nextNodeId := st.nextNodeId + 1 })) ∧
    (∀ (parse : String → RNodeList) (tokensId : Nat) (tokens exprs : List String)
       (st : RendState), lookupCache st.cache tokensId = none →
         ((html parse tokensId tokens exprs st).2.parseCount = st.parseCount + 1 ∧
          lookupCache (html parse tokensId tokens exprs st).2.cache tokensId =
            some (transformHTMLStringToTemplate parse
                    (htmlStringWithStubs tokens exprs.length)))) ∧
    (∀ (parse : String → RNodeList) (tokensId : Nat) (tokens exprs : List String)
       (st : RendState),
       (html parse tokensId tokens exprs st).2.nextNodeId = st.nextNodeId + 1) ∧
    (∀ (parse : String → RNodeList) (tokensId : Nat) (tokens e1 e2 : List String)
       (st : RendState) (r1 : RNode) (i1 : Nat) (r2 : RNode) (i2 : Nat),
       (html parse tokensId tokens e1 st).1 = some (r1, i1) →
       (html parse tokensId tokens e2 (html parse tokensId tokens e1 st).2).1 =
         some (r2, i2) → i1 ≠ i2) := by
  refine ⟨html_hit, ?_, html_nextNodeId, ?_⟩
  · intro parse tokensId tokens exprs st h
    rw [html_miss parse tokensId tokens exprs st h]
    exact ⟨rfl, lookupCache_append_self st.cache tokensId _ h⟩
  · intro parse tokensId tokens e1 e2 st r1 i1 r2 i2 h1 h2
    have hi1 := html_fst_id parse tokensId tokens e1 st r1 i1 h1
    have hi2 := html_fst_id parse tokensId tokens e2 _ r2 i2 h2
    rw [html_nextNodeId] at hi2
    omega

theorem claim6_witness :
    html demoParse 0 renderTokens ["blue", "Blue"] c6CacheSt =
      (instantiate ["blue", "Blue"] demoTempl c6CacheSt.nextNodeId,
       { c6CacheSt with nextNodeId := c6CacheSt.nextNodeId + 1 }) :=
  claim6_template_cache.1 demoParse 0 renderTokens ["blue", "Blue"] c6CacheSt
    demoTempl (by rfl)

/-- Claim C7 counterexample: a stub marker with no matching expression
index is not left as literal unsubstituted text.  Rendering a template
whose parsed text is the marker with index 5, with an empty expression
list, yields the text "undefined" (the JavaScript array access at a
missing index yields undefined, which String.replace stringifies), not
the literal marker. -/
theorem claim7_counterexample :
    (html c7Parse 0 ["<div>__stub-5__</div>"] [] initRend).1 =
      some (.elem "div" [] (.cons (.text "undefined") .nil), 0) ∧
    "undefined" ≠ "__stub-5__" :=
  ⟨rfl, by decide⟩

/-- Claim C7 amended: a stub marker whose index names no expression is
replaced by the string "undefined" (the stringified missing value), not
left literal; an expression with no matching stub is simply never
inserted, and text without markers is unchanged. -/
theorem claim7_missing_expression_amended :
    (∀ (vals : List String) (digits : String),
       vals.length ≤ digitsToNat 0 digits.data → stubLookup vals digits = "undefined") ∧
    (html c7Parse 0 ["<div>__stub-5__</div>"] [] initRend).1 =
      some (.elem "div" [] (.cons (.text "undefined") .nil), 0) ∧
    replaceStubs "plain text" ["unusedExpression"] = "plain text" := by
  refine ⟨?_, rfl, by decide⟩
  intro vals digits h3
  unfold stubLookup
  split
  · rw [List.get?_eq_none.mpr h3]
    rfl
  · rfl

theorem claim7_witness : stubLookup [] "5" = "undefined" :=
  claim7_missing_expression_amended.1 [] "5" (by decide)

/-- Claim C8 counterexample: the substitution pass does not leave the
element's content as cloned when no stub marker is present.  The
compiled template's root has the single element child span (conjunct
two); the template contains no stub marker at all, yet the returned
element's children are the single text node "a": the textContent
assignment at line 225 runs unconditionally and collapses the child
element. -/
theorem claim8_counterexample :
    (html c8Parse 0 ["<div><span>a</span></div>"] [] initRend).1 =
      some (.elem "div" [] (.cons (.text "a") .nil), 0) ∧
    firstElementChild ((transformHTMLStringToTemplate c8Parse
        (htmlStringWithStubs ["<div><span>a</span></div>"] 0)).content) =
      some ("div", [], .cons (.elem "span" [] (.cons (.text "a") .nil)) .nil) ∧
    ¬ (RNodeList.cons (.text "a") .nil =
        RNodeList.cons (.elem "span" [] (.cons (.text "a") .nil)) .nil) :=
  ⟨rfl, rfl, fun h => by injection h with h1 _; exact RNode.noConfusion h1⟩

/-- Claim C8 amended: the pass rewrites every attribute value through stub
replacement, which leaves a value observably unchanged when it contains
no marker, and likewise leaves the textContent string unchanged when it
contains no marker; but it reassigns textContent unconditionally, so the
element's children always become a single text node (or none when the
text is empty), regardless of whether any stub was present. -/
theorem claim8_substitution_scope_amended :
    (∀ (s : String) (vals : List String), hasStub s.data = false →
       replaceStubs s vals = s) ∧
    (∀ (exprs : List String) (tag : String) (attrs : List (String × String))
       (children : RNodeList),
       substitutePass exprs tag attrs children =
         .elem tag (attrs.map (fun p => (p.1, replaceStubs p.2 exprs)))
           (setTextChildren (replaceStubs (textContentOf children) exprs))) :=
  ⟨replaceStubs_no_stub, fun _ _ _ _ => rfl⟩

theorem claim8_witness : replaceStubs "red" ["x"] = "red" :=
  claim8_substitution_scope_amended.1 "red" ["x"] (by decide)

/-- Claim C9: when the effect passed to useEffect throws during its
initial synchronous run, the exception propagates and the active-effect
slot is not cleared: it still holds the throwing effect, so every
subsequent tracked read registers a dependency on that failed effect,
until a later useEffect call completes normally and resets the slot to
empty. -/
theorem claim9_throw_keeps_slot :
    (∀ (e : EffectId) (s : Sys), (useEffect e s).2 = true →
       ((useEffect e s).1).current = some e) ∧
    (∀ (k : Key) (e : EffectId) (s : Sys), s.current = some e →
       depListOf (onGet k s) k = depListOf s k ++ [e]) ∧
    (∀ (e : EffectId) (s : Sys), (useEffect e s).2 = false →
       ((useEffect e s).1).current = none) ∧
    useEffect 0 c9S0 = (c9S1, true) ∧
    c9S1.current = some 0 ∧
    depListOf c9S2 "z" = [0] :=
  ⟨useEffect_current_thrown, depListOf_onGet_active, useEffect_current_ok,
   by decide, by decide, by decide⟩

theorem claim9_witness :
    ((useEffect 0 c9S0).1).current = some 0 ∧
    depListOf (onGet "w2" c9S1) "w2" = depListOf c9S1 "w2" ++ [0] ∧
    ((useEffect 0 c2S1).1).current = none :=
  ⟨claim9_throw_keeps_slot.1 0 c9S0 (by decide),
   claim9_throw_keeps_slot.2.1 "w2" 0 c9S1 (by decide),
   claim9_throw_keeps_slot.2.2.1 0 c2S1 (by decide)⟩

/-- Claim C10: write interception performs no change detection.  Whenever
the written key has a dependency entry, all of its registered effects
are appended to the pending queue, the queued flag becomes true, and an
unarmed turn schedules a microtask, even under the hypothesis that the
stored value already equals the written value (the hypothesis is never
needed: onSet never reads the store).  Concretely, rewriting x = 3 when
x already stores 3 re-enqueues and re-runs the dependent effect. -/
theorem claim10_no_change_detection :
    (∀ (k : Key) (v : Option Val) (s : Sys) (effs : List EffectId),
       lookupDep s.depMap k = some effs → storeRead s.store k = v →
         ((proxySet k v s).queue = s.queue ++ effs ∧
          (proxySet k v s).queued = true ∧
          (s.queued = false → (proxySet k v s).micro = s.micro + 1))) ∧
    storeRead c10S1.store "x" = some 3 ∧
    c10S2.queue = [0] ∧
    runMicrotasks 20 c10S2 = some (c10S3, false) ∧
    c10S3.log = c10S1.log ++ [0] :=
  ⟨fun k v s effs hl _ =>
    ⟨onSet_queue_hit k s effs hl, onSet_queued_hit k s effs hl,
     fun h0 => onSet_micro_hit k s effs hl h0⟩,
   by decide, by decide, by decide, by decide⟩

theorem claim10_witness :
    (proxySet "x" (some 3) c10S1).queue = c10S1.queue ++ [0] ∧
    (proxySet "x" (some 3) c10S1).queued = true ∧
    (proxySet "x" (some 3) c10S1).micro = c10S1.micro + 1 := by
  have h := claim10_no_change_detection.1 "x" (some 3) c10S1 [0] (by decide) (by decide)
  exact ⟨h.1, h.2.1, h.2.2 (by decide)⟩
